import Mathlib

/-!
Shallow embedding of the document assembly engine of `src/app.py`
(tao-te-ching epub builder): section classification, ordering,
identifier registry, cross-reference rewriting, file grouping and
manifest building.  Python strings are modelled as `List Char`
(ASCII-faithful for the inputs the engine reads); Python dicts that are
only consulted via `in` and `[]` are modelled as association lists read
through `lookupStr`; exceptions are modelled with `Except`.
-/

/-- Python strings, modelled as lists of characters. -/
abbrev Str := List Char

/-- Conversion from Lean string literals to the `Str` model. -/
def str (s : String) : Str := s.toList

/-- Numeric value of a run of decimal digit characters, as Python
`int(...)` computes it on the match group (`int(m[1])`, app.py:465). -/
def digitsVal (ds : Str) : Nat :=
  ds.foldl (fun a c => 10 * a + (c.toNat - 48)) 0

/-- Decimal representation of a natural number, as Python `str(number)`
renders it (app.py:469). -/
def natToDigits (n : Nat) : Str :=
  if h : n < 10 then [Char.ofNat (48 + n)]
  else natToDigits (n / 10) ++ [Char.ofNat (48 + n % 10)]
termination_by n
decreasing_by exact Nat.div_lt_self (by omega) (by omega)

/-- Python `s.startswith(p)` (used at app.py:408 and for the anchored
`re.match` of app.py:464). -/
def startswith : Str → Str → Bool
  | _, [] => true
  | [], _ :: _ => false
  | c :: cs, p :: ps => c = p && startswith cs ps

/-- Python `s.strip()` (app.py:389), restricted to the whitespace
characters `Char.isWhitespace` recognises. -/
def pyStrip (s : Str) : Str :=
  ((s.dropWhile Char.isWhitespace).reverse.dropWhile Char.isWhitespace).reverse

/-- One step of Python `str.title()`: the boolean records whether the
previous character was a letter (cased). -/
def pyTitleGo : Bool → Str → Str
  | _, [] => []
  | prev, c :: cs =>
    if c.isAlpha then (if prev then c.toLower else c.toUpper) :: pyTitleGo true cs
    else c :: pyTitleGo false cs

/-- Python `str.title()` (app.py:470), for ASCII text: each letter that
follows a non-letter is uppercased, letters following letters are
lowercased. -/
def pyTitle (s : Str) : Str := pyTitleGo false s

/-- Python truthiness test `not x` on an optional string attribute:
true when the attribute is absent or the empty string (app.py:453,
456, 468). -/
def falsy (o : Option Str) : Bool :=
  match o with
  | none => true
  | some s => s.isEmpty

/-- The `SectionType` enumeration of app.py:47-61, with its fixed rank
order. -/
inductive SectionType where
  | contributor
  | dedication
  | foreword
  | preface
  | introduction
  | epigraph
  | prologue
  | chapter
  | epilogue
  | afterword
  | endnotes
  | appendix
  | bibliography
  | acknowledgments
deriving DecidableEq

/-- The `Enum` value of each `SectionType` member (its position,
app.py:48-61). -/
def SectionType.value : SectionType → Nat
  | .contributor => 0
  | .dedication => 1
  | .foreword => 2
  | .preface => 3
  | .introduction => 4
  | .epigraph => 5
  | .prologue => 6
  | .chapter => 7
  | .epilogue => 8
  | .afterword => 9
  | .endnotes => 10
  | .appendix => 11
  | .bibliography => 12
  | .acknowledgments => 13

/-- The `name` of each `SectionType` member. -/
def SectionType.typeName : SectionType → Str
  | .contributor => str "contributor"
  | .dedication => str "dedication"
  | .foreword => str "foreword"
  | .preface => str "preface"
  | .introduction => str "introduction"
  | .epigraph => str "epigraph"
  | .prologue => str "prologue"
  | .chapter => str "chapter"
  | .epilogue => str "epilogue"
  | .afterword => str "afterword"
  | .endnotes => str "endnotes"
  | .appendix => str "appendix"
  | .bibliography => str "bibliography"
  | .acknowledgments => str "acknowledgments"

/-- The member list iterated by `SectionType.create` (app.py:62-67). -/
def SectionType.members : List SectionType :=
  [.contributor, .dedication, .foreword, .preface, .introduction,
   .epigraph, .prologue, .chapter, .epilogue, .afterword, .endnotes,
   .appendix, .bibliography, .acknowledgments]

/-- `SectionType.create` (app.py:62-67): look the name up among the
members, raising `ValueError(name)` when unknown. -/
def SectionType.create (name : Str) : Except Str SectionType :=
  match SectionType.members.find? (fun item => item.typeName = name) with
  | some item => Except.ok item
  | none => Except.error name

/-- The slice of a parsed `bs4` element tree that the engine reads and
mutates: the root attributes `epub:type`, `id`, `title`, `lang` and
`class`, the ids of descendant elements in document order
(`find_all(id=True)`, app.py:394), and the `href` attributes of
descendant `a` elements in document order (`find_all('a')`,
app.py:399; a missing `href` is read back as the empty string,
app.py:389). -/
structure Element where
  etype : Option Str
  id : Option Str
  title : Option Str
  lang : Option Str
  classes : List Str
  nestedIds : List Str
  links : List Str
deriving DecidableEq

/-- The `Section` dataclass state (app.py:257-264): its type, chapter
number (defaulted to 1), optional language, and the owned element. -/
structure Section where
  typ : SectionType
  number : Nat
  language : Option Str
  element : Element
deriving DecidableEq

/-- `Section.id` property (app.py:265-269): the element's `id`
attribute (after classification it is always set; an absent id is
modelled as the empty string). -/
def Section.id (s : Section) : Str := s.element.id.getD []

/-- `Section.title` property (app.py:270-274): the element's `title`
attribute. -/
def Section.title (s : Section) : Option Str := s.element.title

/-- `Section.is_chapter` (app.py:301-302). -/
def Section.is_chapter (s : Section) : Bool := s.typ = SectionType.chapter

/-- `Section.order` (app.py:287-289): `1000 * type.value + number`. -/
def Section.order (s : Section) : Nat := 1000 * s.typ.value + s.number

/-- `Project.chapter_section_name` (app.py:24). -/
def chapter_section_name : Str := str "chapters"

/-- `Project.section_suffix` (app.py:23). -/
def section_suffix : Str := str ".xhtml"

/-- `Section.filename` (app.py:290-293): the fixed chapters name for
chapters, the section's own id otherwise, plus the suffix. -/
def Section.filename (s : Section) : Str :=
  (if s.is_chapter then chapter_section_name else s.id) ++ section_suffix

/-- `Section.label` (app.py:281-283): the chapters label (localised for
Polish) for chapters, the element title otherwise. -/
def Section.label (s : Section) : Option Str :=
  if s.is_chapter then
    some (if s.language = some (str "pl") then str "Rozdziały" else str "Chapters")
  else s.title

/-- The anchored regular-expression match `re.match(r'ch-(\d+)', id)`
of app.py:464: `re.match` anchors only at the start of the string, so
it succeeds whenever the id starts with `ch-` followed by at least one
digit, and the group is the maximal leading run of digits. Returns the
group's numeric value. -/
def chMatch (id : Str) : Option Nat :=
  if startswith id (str "ch-") then
    let ds := (id.drop 3).takeWhile Char.isDigit
    if ds = [] then none else some (digitsVal ds)
  else none

/-- Default-title assignment of `create_section_from_element`
(app.py:468-470): when the element has no (or an empty) `title`
attribute, set it to `str(number)` for chapters and to the humanized
id (`id.title()`) otherwise. -/
def setDefaultTitle (s : Section) : Section :=
  if falsy s.element.title then
    { s with element := { s.element with
        title := some (if s.is_chapter then natToDigits s.number else pyTitle s.id) } }
  else s

/-- Tail of `create_section_from_element` after the type and id have
been settled (app.py:460-471): build the section, extract the chapter
number (raising on an id that does not even start with `ch-<digit>`),
then default the title. -/
def classifyRest (type_ : SectionType) (element : Element) : Except Str Section :=
  if type_ = SectionType.chapter then
    match chMatch (element.id.getD []) with
    | none => Except.error (str "Chapter section with invalid id attribute")
    | some n =>
      Except.ok (setDefaultTitle
        { typ := type_, number := n, language := element.lang, element := element })
  else
    Except.ok (setDefaultTitle
      { typ := type_, number := 1, language := element.lang, element := element })

/-- `create_section_from_element` (app.py:451-471): require an
`epub:type`, resolve it in the enumeration, default a missing id to the
type name (chapters must carry an id), then classify. -/
def create_section_from_element (element : Element) : Except Str Section :=
  if falsy element.etype then
    Except.error (str "Section without epub:type attribute")
  else
    match SectionType.create (element.etype.getD []) with
    | Except.error name => Except.error name
    | Except.ok type_ =>
      if falsy element.id then
        if type_ = SectionType.chapter then
          Except.error (str "Chapter section without id attribute")
        else classifyRest type_ { element with id := some type_.typeName }
      else classifyRest type_ element

/-- Model of the external `slugify` collaborator (app.py:229): ASCII
lowercasing, non-alphanumeric runs collapsed to single hyphens,
hyphens trimmed at both ends. No verified claim depends on its
output's shape. -/
def slugify (s : Str) : Str :=
  let mapped := s.map (fun c => if c.isAlphanum then c.toLower else '-')
  let collapsed := (mapped.foldr
    (fun c acc => if c = '-' ∧ acc.head? = some '-' then acc else c :: acc) [])
  (((collapsed.dropWhile (· = '-')).reverse.dropWhile (· = '-')).reverse)

/-- Python string interpolation of an optional string: `f'{x}'` renders
`None` as the text `None`. -/
def pyFormat (o : Option Str) : Str := o.getD (str "None")

/-- The `Translation` state (app.py:207-217): metadata, the sortable
prefix (defaulted to `Project.default_prefix = "00"`), and the owned
sections. -/
structure Translation where
  language : Option Str
  title : Option Str
  author : Option Str
  translator : Option Str
  year : Option Str
  prefix_ : Str
  sections : List Section
deriving DecidableEq

/-- `Translation.sort` (app.py:223-224): Python's stable `list.sort`
with key `s.order`, embedded as a stable merge sort under the
comparison `order ≤ order`. -/
def Translation.sort (tr : Translation) : Translation :=
  { tr with sections :=
      tr.sections.mergeSort (fun a b => decide (a.order ≤ b.order)) }

/-- `Translation.dirname` (app.py:227-229):
`slugify(f'{prefix} - {translator}')`. -/
def Translation.dirname (tr : Translation) : Str :=
  slugify (tr.prefix_ ++ str " - " ++ pyFormat tr.translator)

/-- The `seen`-set loop of `Translation.file_sections` (app.py:241-247),
with the set of already-seen filenames made explicit. -/
def fileSectionsGo (seen : List Str) : List Section → List Section
  | [] => []
  | s :: rest =>
    if s.filename ∈ seen then fileSectionsGo seen rest
    else s :: fileSectionsGo (s.filename :: seen) rest

/-- `Translation.file_sections` (app.py:241-247): the sections whose
filename has not appeared earlier in the list (first occurrence per
output file). -/
def Translation.file_sections (tr : Translation) : List Section :=
  fileSectionsGo [] tr.sections

/-- The `Book` state relevant to the assembly engine (app.py:141-153):
its ordered translations. The fixed `Metadata` constants and the two
timestamps rendered into templates are not consulted by any verified
component. -/
structure Book where
  translations : List Translation

/-- `Book.sort` (app.py:150-153): sort each translation's sections,
then order the translations by their `prefix` key (Python sorts string
keys lexicographically; the stable merge sort mirrors `list.sort`). -/
def Book.sort (b : Book) : Book :=
  { translations :=
      (b.translations.map Translation.sort).mergeSort
        (fun x y => decide (x.prefix_ ≤ y.prefix_)) }

/-- One manifest tuple yielded by `Book.items` (app.py:164-170). -/
structure Item where
  path : Str
  id : Str
  title : Option Str
  translator : Option Str
  css_class : Option Str
deriving DecidableEq

/-- The manifest id `f'tr-{tr.prefix}_{sid}'` of app.py:163-166. -/
def itemId (tr : Translation) (s : Section) : Str :=
  str "tr-" ++ tr.prefix_ ++ ['_']
    ++ (if s.is_chapter then chapter_section_name else s.id)

/-- The inner per-translation loop of `Book.items` (app.py:157-171):
skip a section whose filename was already emitted, otherwise yield the
manifest tuple; `css` is the pending `css_class` value and is consumed
by the first yielded item. -/
def itemsGo (tr : Translation) (seen : List Str) (css : Option Str) :
    List Section → List Item
  | [] => []
  | s :: rest =>
    if s.filename ∈ seen then itemsGo tr seen css rest
    else
      { path := tr.dirname ++ ['/'] ++ s.filename
        id := itemId tr s
        title := s.label
        translator := tr.translator
        css_class := css } :: itemsGo tr (s.filename :: seen) none rest

/-- `Book.items` (app.py:154-172): the flat manifest, one tuple per
distinct output filename per translation; after every translation the
pending `css_class` is reset to `'m-li'`. -/
def Book.items (b : Book) : List Item :=
  (b.translations.foldl
    (fun acc tr => (acc.1 ++ itemsGo tr [] acc.2 tr.sections, some (str "m-li")))
    (([] : List Item), (none : Option Str))).1

/-- `extract_id` of `process` (app.py:388-390): strip the href, return
the empty string when it is empty, drop one leading `#`. -/
def extract_id (href : Str) : Str :=
  match pyStrip href with
  | [] => []
  | c :: rest => if c = '#' then rest else c :: rest

/-- Lookup in the association-list model of the `id_map` dict: the most
recently prepended binding wins, matching last-write-wins assignment. -/
def lookupStr (m : List (Str × Str)) (k : Str) : Option Str :=
  match m with
  | [] => none
  | (k', v) :: rest => if k' = k then some v else lookupStr rest k

/-- Unconditional dict assignment `id_map[k] = v` (app.py:393). -/
def dictSet (m : List (Str × Str)) (k v : Str) : List (Str × Str) :=
  (k, v) :: m

/-- Conditional insertion of one nested id (app.py:394-397): only a
truthy id that is not yet a key is recorded. -/
def addNested (fn : Str) (m : List (Str × Str)) (nid : Str) : List (Str × Str) :=
  if nid ≠ [] then (if lookupStr m nid = none then (nid, fn) :: m else m) else m

/-- The id-map construction loop of `process` (app.py:391-397): for
each section in order, record the section-level id unconditionally,
then record each nested id only when absent. -/
def buildIdMap (sections : List Section) : List (Str × Str) :=
  sections.foldl
    (fun m s => s.element.nestedIds.foldl (addNested s.filename) (dictSet m s.id s.filename))
    []

/-- The per-link rewrite of `process` (app.py:398-410): extract the
fragment id; leave the link untouched when the id is empty, is the
section's own id, is not registered, or resolves to the section's own
file; otherwise remap a `ch-` id to `h-` + id and retarget the link to
`filename#id`. -/
def rewriteHref (m : List (Str × Str)) (sid fn href : Str) : Str :=
  let href_id := extract_id href
  if href_id = [] then href
  else if href_id = sid then href
  else
    match lookupStr m href_id with
    | none => href
    | some href_filename =>
      if href_filename ≠ fn then
        (let href_id := if startswith href_id (str "ch-") then str "h-" ++ href_id else href_id
         href_filename ++ ['#'] ++ href_id)
      else href

/-- The per-section body of the second `process` loop (app.py:398-413):
rewrite every link, and for a chapter set the `bra` class and insert
the heading tag carrying the heading id `h-` + id as the first child
(its id becomes the first nested id in document order). -/
def processSection (m : List (Str × Str)) (s : Section) : Section :=
  let s := { s with element := { s.element with
      links := s.element.links.map (rewriteHref m s.id s.filename) } }
  if s.is_chapter then
    { s with element := { s.element with
        classes := [str "bra"],
        nestedIds := (str "h-" ++ s.id) :: s.element.nestedIds } }
  else s

/-- `create_translator_section` (app.py:434-449): a synthesized
`contributor` section whose element carries the translator as title,
no id and no lang, and whose menu links point at each distinct
non-contributor output file (`create_menu_element`, app.py:425-432).
Classification then defaults its id to `contributor`; its language is
set to the translation's. -/
def create_translator_section (tr : Translation) : Except Str Section :=
  let element : Element :=
    { etype := some (str "contributor")
      id := none
      title := some (pyFormat tr.translator)
      lang := none
      classes := []
      nestedIds := []
      links := (tr.file_sections.filter
          (fun s => ¬ s.typ = SectionType.contributor)).map Section.filename }
  (create_section_from_element element).map
    (fun s => { s with language := tr.language })

/-- `process` (app.py:381-415): build the id map, rewrite every
section's links and decorate chapters, sort the sections, then append
the synthesized translator section. -/
def process (tr : Translation) : Except Str Translation :=
  let m := buildIdMap tr.sections
  let tr := { tr with sections := tr.sections.map (processSection m) }
  let tr := tr.sort
  (create_translator_section tr).map
    (fun s => { tr with sections := tr.sections ++ [s] })

/-- The `SECTIONS` label table of the superseded processor kept in the
source as commented-out code (app.py:613-627); the specification's
title rule step (c) refers to this table. It is not consulted by the
live `create_section_from_element`. -/
def SECTIONS : List (Str × Option Str) :=
  [(str "dedication", none),
   (str "foreword", some (str "Foreword")),
   (str "preface", some (str "Preface")),
   (str "introduction", some (str "Introduction")),
   (str "epigraph", none),
   (str "prologue", some (str "Prologue")),
   (str "chapter", none),
   (str "epilogue", some (str "Epilogue")),
   (str "afterword", some (str "Afterword")),
   (str "footnotes", some (str "Notes")),
   (str "endnotes", some (str "Notes")),
   (str "appendix", some (str "Appendix")),
   (str "acknowledgments", some (str "Acknowledgments"))]

/-- The claim's full-anchored reading of the chapter id pattern
`ch-<digits>`: the whole id is `ch-` followed by one or more digits. -/
def fullChPattern (id : Str) : Bool :=
  startswith id (str "ch-") && (id.drop 3 ≠ [] && (id.drop 3).all Char.isDigit)

/-- A minimal parsed element with the given `epub:type` and id and no
other attributes, descendant ids or links. -/
def mkElem (t id : String) : Element :=
  { etype := some (str t), id := some (str id), title := none, lang := none,
    classes := [], nestedIds := [], links := [] }

/-- A section fixture over `mkElem`. -/
def mkSec (t : SectionType) (n : Nat) (e : Element) : Section :=
  { typ := t, number := n, language := none, element := e }

/-- A translation fixture holding the given sections. -/
def mkTr (sections : List Section) : Translation :=
  { language := none, title := none, author := none, translator := none,
    year := none, prefix_ := str "00", sections := sections }

def chapterOneSection : Section := mkSec SectionType.chapter 1 (mkElem "chapter" "ch-1")

def chapterFiveSection : Section := mkSec SectionType.chapter 5 (mkElem "chapter" "ch-5")

def endnotesSection : Section := mkSec SectionType.endnotes 1 (mkElem "endnotes" "endnotes")

def introChaptersIdSection : Section :=
  mkSec SectionType.introduction 1 (mkElem "introduction" "chapters")

def endnotesNoTitleElem : Element :=
  { etype := some (str "endnotes"), id := none, title := none, lang := none,
    classes := [], nestedIds := [], links := [] }

/-- Lookup of a type name in the superseded `SECTIONS` label table. -/
def labelEntry (k : Str) : Option (Option Str) :=
  (SECTIONS.find? (fun p => p.1 = k)).map (fun p => p.2)

def fwElem : Element := mkElem "foreword" "my-foreword"

def fwSec : Section :=
  { typ := SectionType.foreword, number := 1, language := none,
    element := { fwElem with title := some (str "My-Foreword") } }

def introSectionEx : Section :=
  mkSec SectionType.introduction 1 (mkElem "introduction" "introduction")

def chapterTwoSection : Section := mkSec SectionType.chapter 2 (mkElem "chapter" "ch-2")

def epilogueSectionEx : Section := mkSec SectionType.epilogue 1 (mkElem "epilogue" "epilogue")

/-- The (path, id, title, translator) quadruple of a manifest item,
without the presentation-only css tag (the claim's tuple shape). -/
structure ItemData where
  path : Str
  id : Str
  title : Option Str
  translator : Option Str
deriving DecidableEq

/-- Forget the css tag of a manifest item. -/
def stripCss (it : Item) : ItemData :=
  { path := it.path, id := it.id, title := it.title, translator := it.translator }

/-- The manifest quadruple `Book.items` yields for one section
(app.py:163-170). -/
def mkItemData (tr : Translation) (s : Section) : ItemData :=
  { path := tr.dirname ++ ['/'] ++ s.filename, id := itemId tr s,
    title := s.label, translator := tr.translator }

/-- The claim's description of the winner for a section-level id: the
filename of the last section in parse order whose own id equals `id`
(refinement comparison definition, following the claim's words). -/
def claimLastSectionOwner (id : Str) : List Section → Option Str
  | [] => none
  | s :: rest =>
    match claimLastSectionOwner id rest with
    | some f => some f
    | none => if s.id = id then some s.filename else none

/-- The claim's description of the winner for a nested id: the filename
of the first section in parse order containing `id` among its nested
element ids (refinement comparison definition, following the claim's
words). -/
def claimFirstNestedOwner (id : Str) : List Section → Option Str
  | [] => none
  | s :: rest =>
    if id ∈ s.element.nestedIds then some s.filename else claimFirstNestedOwner id rest

def introNotedSection : Section :=
  { typ := SectionType.introduction, number := 1, language := none,
    element := { mkElem "introduction" "introduction" with nestedIds := [str "note-1"] } }

def endnotesNotedSection : Section :=
  { typ := SectionType.endnotes, number := 1, language := none,
    element := { mkElem "endnotes" "endnotes" with nestedIds := [str "note-1"] } }

def appendixCh1Section : Section := mkSec SectionType.appendix 1 (mkElem "appendix" "ch-1")

theorem toNat_digitChar (d : Nat) (h : d < 10) : (Char.ofNat (48 + d)).toNat = 48 + d := by
  interval_cases d <;> decide

theorem isDigit_digitChar (d : Nat) (h : d < 10) : (Char.ofNat (48 + d)).isDigit = true := by
  interval_cases d <;> decide

theorem digitsVal_append_last (xs : Str) (c : Char) :
    digitsVal (xs ++ [c]) = 10 * digitsVal xs + (c.toNat - 48) := by
  simp [digitsVal, List.foldl_append]

theorem digitsVal_natToDigits (n : Nat) : digitsVal (natToDigits n) = n := by
  induction n using Nat.strong_induction_on with
  | _ n ih =>
    rw [natToDigits]
    by_cases h : n < 10
    · rw [dif_pos h]
      have hd := toNat_digitChar n h
      simp [digitsVal, hd]
    · rw [dif_neg h, digitsVal_append_last,
        ih (n / 10) (Nat.div_lt_self (by omega) (by omega)),
        toNat_digitChar (n % 10) (Nat.mod_lt _ (by omega))]
      omega

theorem natToDigits_ne_nil (n : Nat) : natToDigits n ≠ [] := by
  rw [natToDigits]
  by_cases h : n < 10
  · rw [dif_pos h]; simp
  · rw [dif_neg h]; simp

theorem natToDigits_all_digits (n : Nat) : ∀ c ∈ natToDigits n, c.isDigit = true := by
  induction n using Nat.strong_induction_on with
  | _ n ih =>
    rw [natToDigits]
    by_cases h : n < 10
    · rw [dif_pos h]
      intro c hc
      simp only [List.mem_singleton] at hc
      subst hc
      exact isDigit_digitChar n h
    · rw [dif_neg h]
      intro c hc
      rcases List.mem_append.mp hc with h1 | h2
      · exact ih (n / 10) (Nat.div_lt_self (by omega) (by omega)) c h1
      · simp only [List.mem_singleton] at h2
        subst h2
        exact isDigit_digitChar (n % 10) (Nat.mod_lt _ (by omega))

theorem startswith_append (p r : Str) : startswith (p ++ r) p = true := by
  induction p with
  | nil => cases r <;> simp [startswith]
  | cons c cs ih => simp [startswith, ih]

theorem chMatch_ch_append (ds : Str) (h1 : ds ≠ []) (h2 : ∀ c ∈ ds, c.isDigit = true) :
    chMatch (str "ch-" ++ ds) = some (digitsVal ds) := by
  unfold chMatch
  rw [startswith_append (str "ch-") ds]
  have hdrop : (str "ch-" ++ ds).drop 3 = ds := List.drop_left' rfl
  have htake : ds.takeWhile Char.isDigit = ds :=
    List.takeWhile_eq_self_iff.mpr (by intro x hx; exact h2 x hx)
  simp [hdrop, htake, h1]

theorem chMatch_natToDigits (n : Nat) :
    chMatch (str "ch-" ++ natToDigits n) = some n := by
  rw [chMatch_ch_append (natToDigits n) (natToDigits_ne_nil n) (natToDigits_all_digits n),
    digitsVal_natToDigits]

theorem extract_id_startswith_ne_nil (href : Str)
    (h : startswith (extract_id href) (str "ch-") = true) : extract_id href ≠ [] := by
  intro h0
  rw [h0] at h
  exact absurd h (by decide)

theorem rewriteHref_found_cross (m : List (Str × Str)) (sid fn href f : Str)
    (hne : extract_id href ≠ []) (hself : extract_id href ≠ sid)
    (hfound : lookupStr m (extract_id href) = some f) (hcross : f ≠ fn) :
    rewriteHref m sid fn href =
      f ++ ['#'] ++ (if startswith (extract_id href) (str "ch-") then
        str "h-" ++ extract_id href else extract_id href) := by
  unfold rewriteHref
  rw [if_neg hne, if_neg hself, hfound]
  simp [hcross]

theorem rewriteHref_found_same (m : List (Str × Str)) (sid fn href f : Str)
    (hself : extract_id href ≠ sid)
    (hfound : lookupStr m (extract_id href) = some f) (hsame : f = fn) :
    rewriteHref m sid fn href = href := by
  unfold rewriteHref
  by_cases hne : extract_id href = []
  · rw [if_pos hne]
  · rw [if_neg hne, if_neg hself, hfound]
    simp [hsame]

/-- C1 (counterexample): a cross-file link to the chapter id `ch-1`
satisfies every hypothesis of the claim (non-empty id, not the
section's own id, registered under a different filename), yet the
rewritten target is `chapters.xhtml#h-ch-1`, not the claimed
`chapters.xhtml#ch-1`. -/
theorem c1_counterexample :
    extract_id (str "#ch-1") ≠ []
    ∧ extract_id (str "#ch-1") ≠ str "introduction"
    ∧ lookupStr (buildIdMap [chapterOneSection]) (extract_id (str "#ch-1"))
        = some (str "chapters.xhtml")
    ∧ str "chapters.xhtml" ≠ str "introduction.xhtml"
    ∧ rewriteHref (buildIdMap [chapterOneSection]) (str "introduction")
        (str "introduction.xhtml") (str "#ch-1")
        ≠ str "chapters.xhtml" ++ ['#'] ++ extract_id (str "#ch-1")
    ∧ rewriteHref (buildIdMap [chapterOneSection]) (str "introduction")
        (str "introduction.xhtml") (str "#ch-1")
        = str "chapters.xhtml#h-ch-1" := by decide

/-- C1 (amended): for a link whose extracted fragment id is non-empty,
differs from the section's own id and is registered: if the owning
filename differs from the section's filename the target becomes
`<owning-filename>#<id>` except that an id starting with `ch-` is
remapped to `h-<id>`; if it resolves to the section's own file the
link is left completely unchanged (an already-bare `#id` stays as it
was). -/
theorem c1_crossfile_rewrite_amended (tr : Translation) (sid fn href f : Str)
    (hne : extract_id href ≠ [])
    (hself : extract_id href ≠ sid)
    (hfound : lookupStr (buildIdMap tr.sections) (extract_id href) = some f) :
    (f ≠ fn → rewriteHref (buildIdMap tr.sections) sid fn href =
      f ++ ['#'] ++ (if startswith (extract_id href) (str "ch-") then
        str "h-" ++ extract_id href else extract_id href))
    ∧ (f = fn → rewriteHref (buildIdMap tr.sections) sid fn href = href) :=
  ⟨fun hcross => rewriteHref_found_cross _ sid fn href f hne hself hfound hcross,
   fun hsame => rewriteHref_found_same _ sid fn href f hself hfound hsame⟩

/-- Witness for C1 (amended) at the inputs of the counterexample and at
a non-chapter target `endnotes` living in `endnotes.xhtml`. -/
theorem c1_crossfile_rewrite_amended_witness :
    rewriteHref (buildIdMap [chapterOneSection, endnotesSection]) (str "introduction")
      (str "introduction.xhtml") (str "#endnotes")
      = str "endnotes.xhtml" ++ ['#'] ++ (if startswith (extract_id (str "#endnotes"))
          (str "ch-") then str "h-" ++ extract_id (str "#endnotes")
          else extract_id (str "#endnotes")) :=
  (c1_crossfile_rewrite_amended (mkTr [chapterOneSection, endnotesSection])
    (str "introduction") (str "introduction.xhtml") (str "#endnotes")
    (str "endnotes.xhtml") (by decide) (by decide) (by decide)).1 (by decide)

/-- C4: a registered link target whose id starts with `ch-` and which
resolves to a file other than the containing section's is retargeted
to `<owning-filename>#h-<id>`: the heading id, not the raw chapter
id. -/
theorem c4_chapter_anchor_remap (tr : Translation) (sid fn href f : Str)
    (hch : startswith (extract_id href) (str "ch-") = true)
    (hself : extract_id href ≠ sid)
    (hfound : lookupStr (buildIdMap tr.sections) (extract_id href) = some f)
    (hcross : f ≠ fn) :
    rewriteHref (buildIdMap tr.sections) sid fn href
      = f ++ str "#h-" ++ extract_id href := by
  rw [rewriteHref_found_cross _ sid fn href f
    (extract_id_startswith_ne_nil href hch) hself hfound hcross, if_pos hch]
  have h1 : (str "#h-" : Str) = ['#'] ++ str "h-" := rfl
  rw [h1]
  simp [List.append_assoc]

/-- Witness for C4: a navigation link to `ch-5` from the endnotes file
ends up targeting `chapters.xhtml#h-ch-5`. -/
theorem c4_chapter_anchor_remap_witness :
    rewriteHref (buildIdMap [chapterFiveSection, endnotesSection]) (str "endnotes")
      (str "endnotes.xhtml") (str "#ch-5")
      = str "chapters.xhtml" ++ str "#h-" ++ extract_id (str "#ch-5") :=
  c4_chapter_anchor_remap (mkTr [chapterFiveSection, endnotesSection])
    (str "endnotes") (str "endnotes.xhtml") (str "#ch-5") (str "chapters.xhtml")
    (by decide) (by decide) (by decide) (by decide)

/-- C5: a link whose extracted id is absent from the identifier
registry is left completely untouched, and reference resolution never
aborts the build: `process` always returns a value, never an error. -/
theorem c5_dangling_link_nonfatal :
    (∀ (tr : Translation) (sid fn href : Str),
      lookupStr (buildIdMap tr.sections) (extract_id href) = none →
        rewriteHref (buildIdMap tr.sections) sid fn href = href)
    ∧ (∀ tr : Translation, ∃ tr', process tr = Except.ok tr') := by
  constructor
  · intro tr sid fn href h
    unfold rewriteHref
    by_cases h1 : extract_id href = []
    · rw [if_pos h1]
    · by_cases h2 : extract_id href = sid
      · rw [if_neg h1, if_pos h2]
      · rw [if_neg h1, if_neg h2, h]
  · intro tr
    exact ⟨_, rfl⟩

/-- Witness for C5 at an unregistered id. -/
theorem c5_dangling_link_nonfatal_witness :
    rewriteHref (buildIdMap [chapterOneSection]) (str "introduction")
      (str "introduction.xhtml") (str "#nowhere") = str "#nowhere" :=
  c5_dangling_link_nonfatal.1 (mkTr [chapterOneSection]) (str "introduction")
    (str "introduction.xhtml") (str "#nowhere") (by decide)

theorem classify_chapter_ok (e : Element) (he : e.etype = some (str "chapter"))
    (hf : falsy e.id = false) (n : Nat) (hm : chMatch (e.id.getD []) = some n) :
    create_section_from_element e =
      Except.ok (setDefaultTitle
        { typ := SectionType.chapter, number := n, language := e.lang, element := e }) := by
  have h1 : falsy (some (str "chapter")) = false := rfl
  have h2 : SectionType.create (str "chapter") = Except.ok SectionType.chapter := rfl
  simp [create_section_from_element, classifyRest, he, h1, h2, hf, hm]

theorem setDefaultTitle_number (s : Section) : (setDefaultTitle s).number = s.number := by
  unfold setDefaultTitle
  split <;> rfl

theorem setDefaultTitle_typ (s : Section) : (setDefaultTitle s).typ = s.typ := by
  unfold setDefaultTitle
  split <;> rfl

/-- C3 (counterexample): the id `ch-1x` does not match the pattern
`ch-<digits>` (read as matching the whole id), yet classification of a
chapter carrying it succeeds, with number 1 — `re.match` only anchors
at the start of the string. -/
theorem c3_counterexample :
    fullChPattern (str "ch-1x") = false
    ∧ (match create_section_from_element (mkElem "chapter" "ch-1x") with
       | Except.ok s => some s.number
       | Except.error _ => none) = some 1 := by decide

/-- C3 (amended): classifying a chapter node fails when the node has no
(or an empty) id, fails when the id does not start with `ch-` followed
by at least one digit, and otherwise sets the section's number to the
maximal leading run of digits after `ch-` parsed as an integer. -/
theorem c3_chapter_classification_amended (e : Element)
    (he : e.etype = some (str "chapter")) :
    (falsy e.id = true →
      create_section_from_element e
        = Except.error (str "Chapter section without id attribute"))
    ∧ (falsy e.id = false → chMatch (e.id.getD []) = none →
      create_section_from_element e
        = Except.error (str "Chapter section with invalid id attribute"))
    ∧ (∀ n, falsy e.id = false → chMatch (e.id.getD []) = some n →
      ∃ s, create_section_from_element e = Except.ok s
        ∧ s.number = n ∧ s.typ = SectionType.chapter) := by
  have h1 : falsy (some (str "chapter")) = false := rfl
  have h2 : SectionType.create (str "chapter") = Except.ok SectionType.chapter := rfl
  refine ⟨?_, ?_, ?_⟩
  · intro hid
    simp [create_section_from_element, he, h1, h2, hid]
  · intro hid hm
    simp [create_section_from_element, classifyRest, he, h1, h2, hid, hm]
  · intro n hid hm
    refine ⟨_, classify_chapter_ok e he hid n hm, ?_, ?_⟩
    · rw [setDefaultTitle_number]
    · rw [setDefaultTitle_typ]

/-- Witness for C3 (amended): a chapter element without id is rejected,
and `ch-12` classifies with number 12. -/
theorem c3_chapter_classification_amended_witness :
    create_section_from_element
        { etype := some (str "chapter"), id := none, title := none, lang := none,
          classes := [], nestedIds := [], links := [] }
      = Except.error (str "Chapter section without id attribute")
    ∧ ∃ s, create_section_from_element (mkElem "chapter" "ch-12") = Except.ok s
        ∧ s.number = 12 ∧ s.typ = SectionType.chapter :=
  ⟨(c3_chapter_classification_amended _ rfl).1 rfl,
   (c3_chapter_classification_amended (mkElem "chapter" "ch-12") rfl).2.2 12
     (by decide) (by decide)⟩

/-- C7: for a chapter id `ch-<digits>`, classification extracts exactly
the digits parsed as an unsigned integer, and re-deriving the id as
`ch-` followed by the decimal rendering of that number and
re-classifying yields the same number (round-trip). -/
theorem c7_chapter_number_roundtrip (ds : Str) (h1 : ds ≠ [])
    (h2 : ∀ c ∈ ds, c.isDigit = true)
    (e : Element) (he : e.etype = some (str "chapter"))
    (hid : e.id = some (str "ch-" ++ ds)) :
    ∃ s, create_section_from_element e = Except.ok s ∧ s.number = digitsVal ds ∧
      ∀ e' : Element, e'.etype = some (str "chapter") →
        e'.id = some (str "ch-" ++ natToDigits s.number) →
          ∃ s', create_section_from_element e' = Except.ok s' ∧ s'.number = s.number := by
  have hfe : falsy e.id = false := by
    rw [hid]
    cases ds with
    | nil => exact absurd rfl h1
    | cons c cs => rfl
  have hme : chMatch (e.id.getD []) = some (digitsVal ds) := by
    rw [hid]
    exact chMatch_ch_append ds h1 h2
  refine ⟨_, classify_chapter_ok e he hfe (digitsVal ds) hme, setDefaultTitle_number _, ?_⟩
  intro e' he' hid'
  rw [setDefaultTitle_number] at hid'
  have hfe' : falsy e'.id = false := by
    rw [hid']
    rfl
  have hme' : chMatch (e'.id.getD []) = some (digitsVal ds) := by
    rw [hid']
    show chMatch (str "ch-" ++ natToDigits (digitsVal ds)) = some (digitsVal ds)
    exact chMatch_natToDigits _
  exact ⟨_, classify_chapter_ok e' he' hfe' (digitsVal ds) hme', by
    rw [setDefaultTitle_number, setDefaultTitle_number]⟩

/-- Witness for C7 at the id `ch-07`: the extracted number is 7 and the
re-derived id `ch-7` parses back to 7. -/
theorem c7_chapter_number_roundtrip_witness :
    ∃ s, create_section_from_element (mkElem "chapter" "ch-07") = Except.ok s
      ∧ s.number = digitsVal (str "07")
      ∧ ∀ e' : Element, e'.etype = some (str "chapter") →
          e'.id = some (str "ch-" ++ natToDigits s.number) →
            ∃ s', create_section_from_element e' = Except.ok s' ∧ s'.number = s.number :=
  c7_chapter_number_roundtrip (str "07") (by decide) (by decide)
    (mkElem "chapter" "ch-07") rfl rfl

/-- C6 (counterexample): a non-chapter section whose author-supplied id
is the fixed chapters name collides with the chapters document: the
mapping from id to filename is not injective outside the chapters
collapse. -/
theorem c6_counterexample :
    Section.filename chapterOneSection = Section.filename introChaptersIdSection
    ∧ ¬(chapterOneSection.is_chapter = true ∧ introChaptersIdSection.is_chapter = true)
    ∧ chapterOneSection.id ≠ introChaptersIdSection.id := by decide

/-- C6 (amended): a section's destination filename is a pure function
of its (type, id); chapters map to the fixed chapters name plus the
suffix and non-chapters to their id plus the suffix; and, provided no
non-chapter section carries the reserved id `chapters`, the mapping
from id to filename is injective except for the many-to-one collapse
of all chapters onto the single chapters document. -/
theorem c6_filename_grouping_amended :
    (∀ s t : Section, s.typ = t.typ → s.id = t.id → s.filename = t.filename)
    ∧ (∀ s : Section, s.is_chapter = true →
        s.filename = chapter_section_name ++ section_suffix)
    ∧ (∀ s : Section, s.is_chapter = false → s.filename = s.id ++ section_suffix)
    ∧ (∀ s t : Section,
        (s.is_chapter = false → s.id ≠ chapter_section_name) →
        (t.is_chapter = false → t.id ≠ chapter_section_name) →
        s.filename = t.filename →
        (s.is_chapter = true ∧ t.is_chapter = true) ∨ s.id = t.id) := by
  have hfn : ∀ s : Section,
      s.filename = (if s.is_chapter then chapter_section_name else s.id) ++ section_suffix :=
    fun s => rfl
  refine ⟨?_, ?_, ?_, ?_⟩
  · intro s t h1 h2
    rw [hfn, hfn, h2]
    have : s.is_chapter = t.is_chapter := by
      simp [Section.is_chapter, h1]
    rw [this]
  · intro s h
    rw [hfn, h]
    simp
  · intro s h
    rw [hfn, h]
    simp
  · intro s t hs ht heq
    rw [hfn, hfn] at heq
    have heq' := List.append_cancel_right heq
    by_cases cs : s.is_chapter = true
    · by_cases ct : t.is_chapter = true
      · exact Or.inl ⟨cs, ct⟩
      · rw [if_pos cs, if_neg ct] at heq'
        exact absurd heq'.symm (ht (Bool.eq_false_iff.mpr ct))
    · by_cases ct : t.is_chapter = true
      · rw [if_neg cs, if_pos ct] at heq'
        exact absurd heq' (hs (Bool.eq_false_iff.mpr cs))
      · rw [if_neg cs, if_neg ct] at heq'
        exact Or.inr heq'

/-- Witness for C6 (amended) at two chapter sections and one endnotes
section. -/
theorem c6_filename_grouping_amended_witness :
    chapterOneSection.filename = chapter_section_name ++ section_suffix
    ∧ endnotesSection.filename = endnotesSection.id ++ section_suffix
    ∧ ((chapterOneSection.is_chapter = true ∧ chapterFiveSection.is_chapter = true)
        ∨ chapterOneSection.id = chapterFiveSection.id) :=
  ⟨c6_filename_grouping_amended.2.1 chapterOneSection (by decide),
   c6_filename_grouping_amended.2.2.1 endnotesSection (by decide),
   c6_filename_grouping_amended.2.2.2 chapterOneSection chapterFiveSection
     (by decide) (by decide) (by decide)⟩

theorem setDefaultTitle_id (x : Section) : (setDefaultTitle x).id = x.id := by
  unfold setDefaultTitle Section.id
  split <;> rfl

theorem setDefaultTitle_is_chapter (x : Section) :
    (setDefaultTitle x).is_chapter = x.is_chapter := by
  simp [Section.is_chapter, setDefaultTitle_typ]

theorem setDefaultTitle_title_kept (x : Section) (h : falsy x.element.title = false) :
    Section.title (setDefaultTitle x) = x.element.title := by
  unfold setDefaultTitle Section.title
  rw [h]
  simp

theorem setDefaultTitle_title_default (x : Section) (h : falsy x.element.title = true) :
    Section.title (setDefaultTitle x)
      = some (if x.is_chapter then natToDigits x.number else pyTitle x.id) := by
  unfold setDefaultTitle Section.title
  rw [h]
  simp

theorem classifyRest_ok_inv (t : SectionType) (e2 : Element) (s : Section)
    (h : classifyRest t e2 = Except.ok s) :
    ∃ n, (t ≠ SectionType.chapter → n = 1)
      ∧ s = setDefaultTitle { typ := t, number := n, language := e2.lang, element := e2 } := by
  unfold classifyRest at h
  split at h
  · rename_i hc
    split at h
    · exact absurd h (by simp)
    · rename_i n hm
      injection h with h
      exact ⟨n, fun hne => absurd hc hne, h.symm⟩
  · injection h with h
    exact ⟨1, fun _ => rfl, h.symm⟩

theorem create_ok_inv (e : Element) (s : Section)
    (h : create_section_from_element e = Except.ok s) :
    ∃ (t : SectionType) (n : Nat) (e2 : Element),
      e2.title = e.title
      ∧ (t ≠ SectionType.chapter → n = 1)
      ∧ s = setDefaultTitle { typ := t, number := n, language := e2.lang, element := e2 } := by
  unfold create_section_from_element at h
  split at h
  · exact absurd h (by simp)
  · split at h
    · exact absurd h (by simp)
    · rename_i type_ heq
      split at h
      · split at h
        · exact absurd h (by simp)
        · obtain ⟨n, hn, hs⟩ := classifyRest_ok_inv type_ _ s h
          exact ⟨type_, n, { e with id := some type_.typeName }, rfl, hn, hs⟩
      · obtain ⟨n, hn, hs⟩ := classifyRest_ok_inv type_ e s h
        exact ⟨type_, n, e, rfl, hn, hs⟩

/-- C8 (counterexample): the label table holds the non-null entry
`Notes` for `endnotes`, but classifying an endnotes node without a
title yields the humanized id `Endnotes` — the live code never
consults the table (it survives only in commented-out code). -/
theorem c8_counterexample :
    labelEntry (str "endnotes") = some (some (str "Notes"))
    ∧ (match create_section_from_element endnotesNoTitleElem with
       | Except.ok s => Section.title s
       | Except.error _ => none) = some (str "Endnotes")
    ∧ some (str "Endnotes") ≠ some (str "Notes") := by decide

/-- C8 (amended): for every classified section the title is assigned by
this priority: a present non-empty title attribute is kept unchanged;
otherwise a chapter's title is the decimal rendering of its number;
otherwise the title is the humanized id (`str.title()` of the id) —
there is no label-table step. -/
theorem c8_title_priority_amended (e : Element) (s : Section)
    (h : create_section_from_element e = Except.ok s) :
    (falsy e.title = false → Section.title s = e.title)
    ∧ (falsy e.title = true → s.is_chapter = true →
        Section.title s = some (natToDigits s.number))
    ∧ (falsy e.title = true → s.is_chapter = false →
        Section.title s = some (pyTitle s.id)) := by
  obtain ⟨t, n, e2, htitle, hdef, rfl⟩ := create_ok_inv e s h
  refine ⟨?_, ?_, ?_⟩
  · intro hf
    rw [setDefaultTitle_title_kept _ (by simpa [htitle] using hf), htitle]
  · intro hf hch
    rw [setDefaultTitle_is_chapter] at hch
    rw [setDefaultTitle_title_default _ (by simpa [htitle] using hf), if_pos hch,
      setDefaultTitle_number]
  · intro hf hch
    rw [setDefaultTitle_is_chapter] at hch
    rw [setDefaultTitle_title_default _ (by simpa [htitle] using hf),
      if_neg (by simp [hch]), setDefaultTitle_id]

/-- Witness for C8 (amended): a foreword with id `my-foreword` and no
title gets the humanized title `My-Foreword`. -/
theorem c8_title_priority_amended_witness :
    Section.title fwSec = some (pyTitle fwSec.id) :=
  (c8_title_priority_amended fwElem fwSec rfl).2.2 rfl rfl

theorem orderLe_trans (a b c : Section) (h1 : decide (a.order ≤ b.order) = true)
    (h2 : decide (b.order ≤ c.order) = true) : decide (a.order ≤ c.order) = true := by
  simp at h1 h2 ⊢
  omega

theorem orderLe_total (a b : Section) :
    (decide (a.order ≤ b.order) || decide (b.order ≤ a.order)) = true := by
  simp
  omega

/-- C2: the sort key is `order = 1000 * rank(type) + number`, the
number is the chapter ordinal for chapters and the constant 1 for
classified non-chapters, `Translation.sort` is a stable sort by that
key (sorted output, a permutation of the input, and any
already-ordered sublist — in particular any run of equal keys — keeps
its relative order), and the `[introduction, chapter(ch-2),
chapter(ch-1), epilogue]` example sorts to `[introduction,
chapter(ch-1), chapter(ch-2), epilogue]`. -/
theorem c2_section_ordering :
    (∀ s : Section, s.order = 1000 * s.typ.value + s.number)
    ∧ (∀ (e : Element) (s : Section), create_section_from_element e = Except.ok s →
        s.is_chapter = false → s.number = 1)
    ∧ (∀ tr : Translation, (tr.sort).sections.Pairwise (fun a b => a.order ≤ b.order))
    ∧ (∀ tr : Translation, (tr.sort).sections.Perm tr.sections)
    ∧ (∀ (tr : Translation) (c : List Section),
        c.Pairwise (fun a b => a.order ≤ b.order) → c.Sublist tr.sections →
        c.Sublist (tr.sort).sections)
    ∧ (mkTr [introSectionEx, chapterTwoSection, chapterOneSection, epilogueSectionEx]).sort
        = mkTr [introSectionEx, chapterOneSection, chapterTwoSection, epilogueSectionEx] := by
  refine ⟨fun s => rfl, ?_, ?_, ?_, ?_, ?_⟩
  · intro e s h hch
    obtain ⟨t, n, e2, _, hdef, rfl⟩ := create_ok_inv e s h
    rw [setDefaultTitle_is_chapter] at hch
    rw [setDefaultTitle_number]
    refine hdef ?_
    intro he
    rw [Section.is_chapter] at hch
    simp [he] at hch
  · intro tr
    have hs := @List.sorted_mergeSort Section (fun a b => decide (a.order ≤ b.order))
      orderLe_trans orderLe_total tr.sections
    exact hs.imp (fun h => by simpa using h)
  · intro tr
    exact List.mergeSort_perm tr.sections _
  · intro tr c hp hsub
    exact List.sublist_mergeSort orderLe_trans orderLe_total
      (hp.imp (fun {a b} h => by simpa using h)) hsub
  · simp [Translation.sort, mkTr, List.mergeSort, List.merge, List.splitInTwo,
      List.splitAt, List.splitAt.go, introSectionEx, chapterTwoSection,
      chapterOneSection, epilogueSectionEx, mkSec, mkElem, Section.order,
      SectionType.value]

/-- Witness for C2 at a classified non-chapter (number 1) and an
ordered sublist of the example translation. -/
theorem c2_section_ordering_witness :
    fwSec.number = 1
    ∧ [introSectionEx, chapterOneSection].Sublist
        ((mkTr [introSectionEx, chapterTwoSection, chapterOneSection,
          epilogueSectionEx]).sort).sections :=
  ⟨c2_section_ordering.2.1 fwElem fwSec rfl rfl,
   c2_section_ordering.2.2.2.2.1 _ _ (by decide) (by decide)⟩

theorem itemsGo_map_stripCss (tr : Translation) (secs : List Section)
    (seen : List Str) (css : Option Str) :
    (itemsGo tr seen css secs).map stripCss
      = (fileSectionsGo seen secs).map (mkItemData tr) := by
  induction secs generalizing seen css with
  | nil => rfl
  | cons s rest ih =>
    unfold itemsGo fileSectionsGo
    by_cases hmem : s.filename ∈ seen
    · rw [if_pos hmem, if_pos hmem, ih]
    · rw [if_neg hmem, if_neg hmem]
      simp only [List.map_cons, ih]
      rfl

theorem items_fold_map_stripCss (trs : List Translation) (acc : List Item × Option Str) :
    ((trs.foldl
        (fun acc tr => (acc.1 ++ itemsGo tr [] acc.2 tr.sections, some (str "m-li")))
        acc).1).map stripCss
      = acc.1.map stripCss
        ++ trs.flatMap (fun tr => (Translation.file_sections tr).map (mkItemData tr)) := by
  induction trs generalizing acc with
  | nil => simp
  | cons tr rest ih =>
    simp only [List.foldl_cons, List.flatMap_cons]
    rw [ih]
    simp [itemsGo_map_stripCss, Translation.file_sections, List.append_assoc]

theorem count_fileSectionsGo (secs : List Section) (seen : List Str) (f : Str) :
    (fileSectionsGo seen secs).countP (fun s => decide (s.filename = f))
      = if f ∉ seen ∧ f ∈ secs.map Section.filename then 1 else 0 := by
  induction secs generalizing seen with
  | nil => simp [fileSectionsGo]
  | cons s rest ih =>
    unfold fileSectionsGo
    by_cases hmem : s.filename ∈ seen
    · rw [if_pos hmem, ih]
      by_cases hf : f = s.filename
      · subst hf
        simp [hmem]
      · by_cases hseen : f ∈ seen <;>
          by_cases hrest : f ∈ rest.map Section.filename <;>
            simp [hseen, hrest, hf]
    · rw [if_neg hmem]
      by_cases hf : f = s.filename
      · subst hf
        rw [List.countP_cons_of_pos _ _ (by simp)]
        rw [ih]
        simp [hmem]
      · rw [List.countP_cons_of_neg _ _
          (by simp only [decide_eq_true_eq]; exact fun h => hf h.symm)]
        rw [ih]
        by_cases hseen : f ∈ seen <;>
          by_cases hrest : f ∈ rest.map Section.filename <;>
            simp [hseen, hrest, hf]

/-- C9: stripped of the css tag, the flat manifest is, translation by
translation in order, one (path, id, title, translator) quadruple per
first occurrence of each output filename (later sections with an
already-emitted filename are skipped); each distinct filename of a
translation contributes exactly one entry, so the chapters document
appears once per translation with at least one chapter, not once per
chapter. -/
theorem c9_manifest_one_entry_per_file :
    (∀ b : Book, (Book.items b).map stripCss
        = b.translations.flatMap
            (fun tr => (Translation.file_sections tr).map (mkItemData tr)))
    ∧ (∀ (tr : Translation) (f : Str),
        (Translation.file_sections tr).countP (fun s => decide (s.filename = f))
          = if f ∈ tr.sections.map Section.filename then 1 else 0)
    ∧ (∀ tr : Translation, (∃ s ∈ tr.sections, s.is_chapter = true) →
        (Translation.file_sections tr).countP
          (fun s => decide (s.filename = chapter_section_name ++ section_suffix)) = 1) := by
  have hcount : ∀ (tr : Translation) (f : Str),
      (Translation.file_sections tr).countP (fun s => decide (s.filename = f))
        = if f ∈ tr.sections.map Section.filename then 1 else 0 := by
    intro tr f
    rw [Translation.file_sections, count_fileSectionsGo]
    simp
  refine ⟨?_, hcount, ?_⟩
  · intro b
    have h := items_fold_map_stripCss b.translations ([], none)
    simpa [Book.items] using h
  · intro tr ⟨s, hs, hch⟩
    rw [hcount]
    have hfn : s.filename = chapter_section_name ++ section_suffix := by
      rw [Section.filename, hch]
      simp
    rw [if_pos]
    rw [← hfn]
    exact List.mem_map_of_mem Section.filename hs

/-- Witness for C9 at a translation with two chapters and one endnotes
section: the chapters document is counted exactly once. -/
theorem c9_manifest_one_entry_per_file_witness :
    (Translation.file_sections
        (mkTr [chapterOneSection, chapterTwoSection, endnotesSection])).countP
      (fun s => decide (s.filename = chapter_section_name ++ section_suffix)) = 1 :=
  c9_manifest_one_entry_per_file.2.2
    (mkTr [chapterOneSection, chapterTwoSection, endnotesSection])
    ⟨chapterOneSection, by decide, by decide⟩

theorem lookup_addNested_fold_some (fn : Str) (ids : List Str) (m : List (Str × Str))
    (id v : Str) (h : lookupStr m id = some v) :
    lookupStr (ids.foldl (addNested fn) m) id = some v := by
  induction ids generalizing m with
  | nil => simpa using h
  | cons nid rest ih =>
    simp only [List.foldl_cons]
    apply ih
    unfold addNested
    split
    · split
      · rename_i h1 h2
        show (if nid = id then some fn else lookupStr m id) = some v
        by_cases hni : nid = id
        · rw [hni] at h2
          rw [h2] at h
          exact absurd h (by simp)
        · rw [if_neg hni, h]
      · exact h
    · exact h

theorem lookup_addNested_fold_none (fn : Str) (ids : List Str) (m : List (Str × Str))
    (id : Str) (hid : id ≠ []) (h : lookupStr m id = none) :
    lookupStr (ids.foldl (addNested fn) m) id = if id ∈ ids then some fn else none := by
  induction ids generalizing m with
  | nil => simpa using h
  | cons nid rest ih =>
    simp only [List.foldl_cons]
    by_cases hni : nid = id
    · subst hni
      have hins : addNested fn m nid = (nid, fn) :: m := by
        simp [addNested, hid, h]
      rw [hins,
        lookup_addNested_fold_some fn rest _ nid fn (by simp [lookupStr])]
      simp
    · have hl : lookupStr (addNested fn m nid) id = none := by
        unfold addNested
        split
        · split
          · show (if nid = id then some fn else lookupStr m id) = none
            rw [if_neg hni, h]
          · exact h
        · exact h
      rw [ih _ hl]
      by_cases hmem : id ∈ rest
      · rw [if_pos hmem, if_pos (List.mem_cons.mpr (Or.inr hmem))]
      · rw [if_neg hmem, if_neg (fun hx => by
          rcases List.mem_cons.mp hx with hx | hx
          · exact hni hx.symm
          · exact hmem hx)]

theorem lookup_buildIdMap_go (sections : List Section) (m : List (Str × Str))
    (id : Str) (hid : id ≠ []) :
    lookupStr (sections.foldl
        (fun m s =>
          s.element.nestedIds.foldl (addNested s.filename) (dictSet m s.id s.filename)) m) id
      = match claimLastSectionOwner id sections with
        | some f => some f
        | none =>
          match lookupStr m id with
          | some v => some v
          | none => claimFirstNestedOwner id sections := by
  induction sections generalizing m with
  | nil =>
    cases h : lookupStr m id <;>
      simp [claimLastSectionOwner, claimFirstNestedOwner, h]
  | cons s rest ih =>
    simp only [List.foldl_cons]
    rw [ih _]
    cases hlast : claimLastSectionOwner id rest with
    | some f => simp [claimLastSectionOwner, hlast]
    | none =>
      simp only [claimLastSectionOwner, claimFirstNestedOwner, hlast]
      by_cases hsid : s.id = id
      · have h1 : lookupStr (dictSet m s.id s.filename) id = some s.filename := by
          show (if s.id = id then some s.filename else lookupStr m id) = some s.filename
          rw [if_pos hsid]
        rw [lookup_addNested_fold_some s.filename _ _ id s.filename h1, if_pos hsid]
      · have h1 : lookupStr (dictSet m s.id s.filename) id = lookupStr m id := by
          show (if s.id = id then some s.filename else lookupStr m id) = lookupStr m id
          rw [if_neg hsid]
        rw [if_neg hsid]
        cases hm : lookupStr m id with
        | some v =>
          rw [lookup_addNested_fold_some s.filename _ _ id v (h1.trans hm)]
        | none =>
          rw [lookup_addNested_fold_none s.filename _ _ id hid (h1.trans hm)]
          by_cases hnest : id ∈ s.element.nestedIds
          · rw [if_pos hnest, if_pos hnest]
          · rw [if_neg hnest, if_neg hnest]

/-- C10: for every non-empty id, the identifier registry resolves it to
the filename of the last section whose own (section-level) id equals
it — section-level ids are recorded unconditionally, so a duplicated
section id maps to the last such section's file — and, failing that,
to the filename of the first section containing it as a nested element
id — a nested id already recorded is never overwritten by a later
occurrence. Cross-reference rewriting depends on the registry only
through these lookups, so it resolves duplicate ids to exactly those
winners. -/
theorem c10_idmap_winners (sections : List Section) (id : Str) (hid : id ≠ []) :
    (lookupStr (buildIdMap sections) id
      = match claimLastSectionOwner id sections with
        | some f => some f
        | none => claimFirstNestedOwner id sections)
    ∧ (∀ (m m' : List (Str × Str)) (sid fn href : Str),
        lookupStr m (extract_id href) = lookupStr m' (extract_id href) →
        rewriteHref m sid fn href = rewriteHref m' sid fn href) := by
  constructor
  · have h := lookup_buildIdMap_go sections [] id hid
    simpa [buildIdMap, lookupStr] using h
  · intro m m' sid fn href h
    simp only [rewriteHref]
    rw [h]

/-- Witness for C10 at a duplicated nested id (`note-1` in two
sections: the first wins) and a duplicated section-level id (`ch-1` as
a chapter's id and a later appendix's id: the last wins). -/
theorem c10_idmap_winners_witness :
    (lookupStr (buildIdMap [introNotedSection, endnotesNotedSection]) (str "note-1")
      = match claimLastSectionOwner (str "note-1") [introNotedSection, endnotesNotedSection] with
        | some f => some f
        | none => claimFirstNestedOwner (str "note-1") [introNotedSection, endnotesNotedSection])
    ∧ (lookupStr (buildIdMap [chapterOneSection, appendixCh1Section]) (str "ch-1")
      = match claimLastSectionOwner (str "ch-1") [chapterOneSection, appendixCh1Section] with
        | some f => some f
        | none => claimFirstNestedOwner (str "ch-1") [chapterOneSection, appendixCh1Section])
    ∧ lookupStr (buildIdMap [introNotedSection, endnotesNotedSection]) (str "note-1")
        = some (str "introduction.xhtml")
    ∧ lookupStr (buildIdMap [chapterOneSection, appendixCh1Section]) (str "ch-1")
        = some (str "ch-1.xhtml") :=
  ⟨(c10_idmap_winners [introNotedSection, endnotesNotedSection] (str "note-1") (by decide)).1,
   (c10_idmap_winners [chapterOneSection, appendixCh1Section] (str "ch-1") (by decide)).1,
   by decide, by decide⟩
